import Mathlib

/-!
Formal embedding of the Autana Dojo core: the pattern engine
(`src/core/pattern-engine/pattern_engine.py`), the privilege system
(`src/core/privilege-manager/privilege_system.py`) and the intelligence layer
(`src/core/intelligence-layer/sakana_intelligence.py`).

Modelling conventions:
- Python floats are embedded as exact rationals (`ℚ`).  Every comparison the
  verified claims depend on is far from the decision boundary, so exact
  arithmetic agrees with IEEE-754 evaluation there.
- SQLite tables are embedded as Lean lists of row structures, in rowid
  (insertion) order; `SELECT ... fetchone` is `List.find?`, `UPDATE ... WHERE`
  is `List.map` guarded on the key, `INSERT` appends a row.
- Opaque effects (MD5-based id generation, `datetime.now()`, `json.dumps`
  serialisation length, the `random` module) are supplied by the caller as
  explicit oracle arguments; the code under test never inspects their values.
- Statements that can raise at the SQLite layer return `Except DbError`.
-/

/-! ### Pattern engine: `SakanaPatternEngine` (pattern_engine.py) -/

/-- A discovery record produced by `SakanaPatternEngine.discover_pattern`
(the dicts appended to `discoveries`, keys `field`, `pattern`, `confidence`,
`formula`). -/
structure Discovery where
  field : String
  pattern : String
  confidence : ℚ
  formula : String
deriving DecidableEq, Repr

/-- The consecutive absolute differences
`[abs(data[i+1] - data[i]) for i in range(len(data)-1)]` used by
`SakanaPatternEngine._is_chaotic`. -/
def abs_diffs : List ℚ → List ℚ
  | a :: b :: rest => |b - a| :: abs_diffs (b :: rest)
  | _ => []

/-- The loop of `SakanaPatternEngine._is_fibonacci_like`: walk the list and
return `False` at the first window where `|data[i] - (data[i-1] + data[i-2])|`
exceeds `0.001`, `True` if the walk finishes. -/
def fibWindows : List ℚ → Bool
  | a :: b :: c :: rest =>
      if |c - (b + a)| ≤ 1/1000 then fibWindows (b :: c :: rest) else false
  | _ => true

/-- `SakanaPatternEngine._is_fibonacci_like`: `False` when fewer than three
elements, otherwise every element from index 2 on must be within `0.001` of the
sum of its two predecessors. -/
def is_fibonacci_like (data : List ℚ) : Bool :=
  if data.length < 3 then false else fibWindows data

/-- Python `int(x)` on a float: truncation toward zero (floor for nonnegative
values, ceiling for negative ones). -/
def pyTrunc (q : ℚ) : ℤ := if 0 ≤ q then ⌊q⌋ else ⌈q⌉

/-- `SakanaPatternEngine._has_modular_pattern`: for a modulus in
`[2, 3, 5, 7, 11]`, compute `int(x) % modulus` (Python `%`: sign of the
divisor, i.e. `Int.emod`) for every element and report `True` as soon as the
set of distinct remainders has size at most 2. -/
def has_modular_pattern (data : List ℚ) : Bool :=
  [(2 : ℤ), 3, 5, 7, 11].any fun m =>
    if (data.map fun x => (pyTrunc x).emod m).dedup.length ≤ 2 then true else false

/-- The ratios `data[i] / data[i-1]` of `SakanaPatternEngine._detect_ratio_pattern`,
skipping pairs whose denominator `data[i-1]` is zero. -/
def consecutive_ratios : List ℚ → List ℚ
  | a :: b :: rest =>
      if a ≠ 0 then b / a :: consecutive_ratios (b :: rest)
      else consecutive_ratios (b :: rest)
  | _ => []

/-- `SakanaPatternEngine._detect_ratio_pattern`: `None` when fewer than two
elements or no ratio could be formed; otherwise the mean ratio when the
population variance of the ratios is below `0.01`, else `None`. -/
def detect_ratio_pattern (data : List ℚ) : Option ℚ :=
  if data.length < 2 then none
  else
    let ratios := consecutive_ratios data
    if ratios = [] then none
    else
      let avg := ratios.sum / (ratios.length : ℚ)
      let var := (ratios.map fun r => (r - avg) ^ 2).sum / (ratios.length : ℚ)
      if var < 1/100 then some avg else none

/-- `SakanaPatternEngine._is_chaotic`: `False` when fewer than 10 elements;
otherwise `True` iff the population variance of the consecutive absolute
differences exceeds `0.5` times their mean. -/
def is_chaotic (data : List ℚ) : Bool :=
  if data.length < 10 then false
  else
    let differences := abs_diffs data
    let avg := differences.sum / (differences.length : ℚ)
    let var := (differences.map fun d => (d - avg) ^ 2).sum / (differences.length : ℚ)
    if var > avg * (1/2) then true else false

/-- Result of `SakanaPatternEngine.discover_pattern`: the dict with keys
`data_length`, `discoveries` and `best_pattern`. -/
structure DiscoverResult where
  data_length : Nat
  discoveries : List Discovery
  best_pattern : Option Discovery
deriving DecidableEq, Repr

/-- Python `max(discoveries, key=confidence)` keeps the first element whose
confidence is maximal (a later element replaces the champion only when its
key is strictly greater); `None` stands for the empty case guard. -/
def pickBest (ds : List Discovery) : Option Discovery :=
  match ds with
  | [] => none
  | d :: tl => some (tl.foldl (fun acc x => if x.confidence > acc.confidence then x else acc) d)

/-- `SakanaPatternEngine.discover_pattern data field`: run the arithmetic
(fibonacci, modular), geometric (ratio) and chaos detectors, restricted by the
optional `field` argument, collecting one scored discovery per firing detector
in program order, and select `best_pattern` by maximal confidence.  The ratio
guard is Python truthiness (`if ratio:`), so a detected mean ratio of exactly
0.0 is skipped like `None`. -/
def discover_pattern (data : List ℚ) (field : Option String) : DiscoverResult :=
  let arith :=
    if field = none ∨ field = some "arithmetic" then
      (if is_fibonacci_like data then
        [⟨"arithmetic", "fibonacci", 95/100, "a[n] = a[n-1] + a[n-2]"⟩] else [])
      ++ (if has_modular_pattern data then
        [⟨"arithmetic", "modular", 88/100, "a[n] % m = constant"⟩] else [])
    else []
  let geom :=
    if field = none ∨ field = some "geometric" then
      match detect_ratio_pattern data with
      | some r =>
          if r ≠ 0 then [⟨"geometric", "ratio", 92/100, "a[n] = a[n-1] * " ++ toString r⟩]
          else []
      | none => []
    else []
  let chaosD :=
    if field = none ∨ field = some "chaos" then
      (if is_chaotic data then
        [⟨"chaos", "chaotic", 78/100, "exhibits sensitive dependence"⟩] else [])
    else []
  let discoveries := arith ++ geom ++ chaosD
  ⟨data.length, discoveries, pickBest discoveries⟩

/-! ### Intelligence-layer patterns and `_synthesize_patterns`
(sakana_intelligence.py) -/

/-- A pattern dict of the intelligence layer (keys `name`, `type`,
`confidence` and, on task-discovered patterns, `formula`).  Every pattern
literal in the source carries a `confidence` key, so the `p.get("confidence", 0)`
accesses of the source always see the stored value, modelled as a total
field. -/
structure SPattern where
  name : String
  type : String
  confidence : ℚ
  formula : Option String
deriving DecidableEq, Repr

/-- The duplicate test of `SakanaIntelligenceLayer._synthesize_patterns`:
some element of `combined` has the same `name` as the incoming pattern, or the
same `type` with confidence differing by less than `0.1`. -/
def isDuplicateOf (combined : List SPattern) (np : SPattern) : Bool :=
  combined.any fun p =>
    if p.name = np.name ∨
        (p.type = np.type ∧ |p.confidence - np.confidence| < 1/10) then true
    else false

/-- One iteration of the `for new_pattern in new` loop of
`SakanaIntelligenceLayer._synthesize_patterns`: when no duplicate is found the
incoming pattern is appended; otherwise the inner
`for i, p in enumerate(combined)` loop overwrites `combined[i]` (only ever at
the index currently visited) for every entry of the same `type` whose
confidence is strictly smaller — which is a pointwise map. -/
def synthStep (combined : List SPattern) (np : SPattern) : List SPattern :=
  if isDuplicateOf combined np then
    combined.map fun p =>
      if p.type = np.type ∧ np.confidence > p.confidence then np else p
  else combined ++ [np]

/-- `SakanaIntelligenceLayer._synthesize_patterns existing new`: start from a
copy of `existing` and run `synthStep` for each incoming pattern in order. -/
def synthesize_patterns (existing incoming : List SPattern) : List SPattern :=
  incoming.foldl synthStep existing

/-! ### Privilege system: `ModelPrivilegeSystem` (privilege_system.py) -/

/-- `ModelPrivilegeSystem.DESKTOP_PRIVILEGES` (dict in key insertion order). -/
def DESKTOP_PRIVILEGES : List (String × Bool) :=
  [("file_system_read", true), ("file_system_write", true),
   ("network_access", true), ("system_commands", true), ("deployment", true),
   ("external_api", true), ("pattern_discovery", true),
   ("model_training", true), ("data_export", true)]

/-- `ModelPrivilegeSystem.TRAINING_PRIVILEGES` (dict in key insertion order). -/
def TRAINING_PRIVILEGES : List (String × Bool) :=
  [("file_system_read", false), ("file_system_write", false),
   ("network_access", false), ("system_commands", false),
   ("deployment", false), ("external_api", false),
   ("pattern_discovery", true), ("model_training", true),
   ("data_export", false)]

/-- Python `dict.get(k, False)` on a string-keyed dict embedded as an
association list with unique keys. -/
def dictGet (d : List (String × Bool)) (k : String) : Option Bool :=
  (d.find? fun kv => kv.1 == k).map (·.2)

/-- Store `k ↦ v` in a dict: overwrite the existing binding or append a new
one (Python dict assignment). -/
def dictSet (d : List (String × Bool)) (k : String) (v : Bool) : List (String × Bool) :=
  if d.any fun kv => kv.1 == k then
    d.map fun kv => if kv.1 == k then (k, v) else kv
  else d ++ [(k, v)]

/-- Python `base.update(custom)`: apply each custom binding in order. -/
def dictUpdate (base custom : List (String × Bool)) : List (String × Bool) :=
  custom.foldl (fun acc kv => dictSet acc kv.1 kv.2) base

/-- A row of the `model_registry` table (`model_id` is the primary key;
`custom_privileges` holds the decoded JSON dict when present). -/
structure ModelRow where
  model_id : String
  model_name : String
  privilege_level : String
  custom_privileges : Option (List (String × Bool))
  created_at : String
  created_by : String
  last_modified : String
  is_active : Bool
deriving DecidableEq, Repr

/-- A row of the append-only `privilege_audit` table (the auto-increment
`audit_id` is the list position). -/
structure AuditRow where
  model_id : String
  action : String
  old_privilege : Option String
  new_privilege : String
  reason : String
  approved_by : String
  timestamp : String
deriving DecidableEq, Repr

/-- A row of the `capability_usage` table (the auto-increment `usage_id` is
the list position). -/
structure UsageRow where
  model_id : String
  capability : String
  usage_count : Nat
  last_used : String
  blocked_attempts : Nat
deriving DecidableEq, Repr

/-- The persistent state of one `ModelPrivilegeSystem` database. -/
structure PrivState where
  model_registry : List ModelRow
  privilege_audit : List AuditRow
  capability_usage : List UsageRow
deriving DecidableEq, Repr

def emptyPriv : PrivState := ⟨[], [], []⟩

/-- Errors raised by the embedded SQLite layer. -/
inductive DbError
  /-- sqlite3.OperationalError: the conflict target of an
  `INSERT ... ON CONFLICT(...) DO UPDATE` statement does not match any
  PRIMARY KEY or UNIQUE constraint of the table. -/
  | onConflictNoUniqueIndex
deriving DecidableEq, Repr

/-- The column sets on which `capability_usage` is declared unique by
`init_database`: only its `usage_id INTEGER PRIMARY KEY AUTOINCREMENT`.
The schema declares no UNIQUE constraint on `(model_id, capability)`. -/
def capability_usage_unique_keys : List (List String) := [["usage_id"]]

/-- The row update the upsert of `_track_capability_usage` asks for: find the
`(model_id, capability)` row and bump `usage_count` (allowed) or
`blocked_attempts` (blocked), or insert a fresh row with the count at 1. -/
def upsertUsage (st : PrivState) (mid cap : String) (allowed : Bool) (now : String) :
    PrivState :=
  if st.capability_usage.any fun r => r.model_id == mid && r.capability == cap then
    { st with capability_usage := st.capability_usage.map fun r =>
        if r.model_id == mid && r.capability == cap then
          if allowed then { r with usage_count := r.usage_count + 1, last_used := now }
          else { r with blocked_attempts := r.blocked_attempts + 1, last_used := now }
        else r }
  else
    { st with capability_usage := st.capability_usage ++
        [⟨mid, cap, if allowed then 1 else 0, now, if allowed then 0 else 1⟩] }

/-- `ModelPrivilegeSystem._track_capability_usage`: both branches execute an
`INSERT INTO capability_usage ... ON CONFLICT(model_id, capability) DO UPDATE`
statement.  SQLite accepts such a statement only when the conflict target
matches a PRIMARY KEY or UNIQUE constraint of the table; `capability_usage`
has none on `(model_id, capability)` (see `capability_usage_unique_keys`), so
preparing the statement raises `sqlite3.OperationalError` and no row is ever
written or updated. -/
def track_capability_usage (st : PrivState) (mid cap : String) (allowed : Bool)
    (now : String) : Except DbError PrivState :=
  if ["model_id", "capability"] ∈ capability_usage_unique_keys then
    .ok (upsertUsage st mid cap allowed now)
  else .error .onConflictNoUniqueIndex

/-- `ModelPrivilegeSystem.get_model_privileges`: fetch the active registry row
(`WHERE model_id = ? AND is_active = 1`); `None` when absent.  The base map is
`DESKTOP_PRIVILEGES` for level `"desktop"`, else `TRAINING_PRIVILEGES` (both
the `"training"` and the `"restricted"` branch copy the training map), then
the decoded `custom_privileges` are applied key by key. -/
def get_model_privileges (st : PrivState) (mid : String) :
    Option (List (String × Bool)) :=
  match st.model_registry.find? fun r => r.model_id == mid && r.is_active with
  | none => none
  | some r =>
      let base := if r.privilege_level = "desktop" then DESKTOP_PRIVILEGES
                  else TRAINING_PRIVILEGES
      some (match r.custom_privileges with
            | some custom => dictUpdate base custom
            | none => base)

/-- `ModelPrivilegeSystem.check_privilege`: resolve the effective privilege
map; on `None` return `False` without touching the database; otherwise track
the attempt (which, per `track_capability_usage`, raises) and return
`privileges.get(capability, False)`. -/
def check_privilege (st : PrivState) (mid cap : String) (now : String) :
    Except DbError (Bool × PrivState) :=
  match get_model_privileges st mid with
  | none => .ok (false, st)
  | some privileges =>
      let allowed := (dictGet privileges cap).getD false
      match track_capability_usage st mid cap allowed now with
      | .error e => .error e
      | .ok st' => .ok (allowed, st')

/-- Append one `privilege_audit` row (`ModelPrivilegeSystem._audit_action`). -/
def audit_action (st : PrivState) (mid action : String) (oldp : Option String)
    (newp reason actor now : String) : PrivState :=
  { st with privilege_audit :=
      st.privilege_audit ++ [⟨mid, action, oldp, newp, reason, actor, now⟩] }

/-- `ModelPrivilegeSystem.register_model`: insert a registry row (fresh MD5
`model_id` supplied by the caller, `is_active` defaulting to 1) and audit a
`REGISTERED` action. -/
def register_model (st : PrivState) (mid name level : String)
    (custom : Option (List (String × Bool))) (created_by now : String) : PrivState :=
  let st' := { st with model_registry := st.model_registry ++
      [⟨mid, name, level, custom, now, created_by, now, true⟩] }
  audit_action st' mid "REGISTERED" none level
    ("Model registered by " ++ created_by) created_by now

/-- `ModelPrivilegeSystem.approve_privilege_escalation`: fetch the registry
row by `model_id` alone (no `is_active` filter); on miss return `False`.
Otherwise set `privilege_level` and `last_modified` on every row with that id,
audit `ESCALATION_APPROVED` with the prior level, and return `True`. -/
def approve_privilege_escalation (st : PrivState) (mid newLevel approver reason now : String) :
    Bool × PrivState :=
  match st.model_registry.find? fun r => r.model_id == mid with
  | none => (false, st)
  | some r =>
      let st' := { st with model_registry := st.model_registry.map fun r' =>
          if r'.model_id == mid then
            { r' with privilege_level := newLevel, last_modified := now }
          else r' }
      (true, audit_action st' mid "ESCALATION_APPROVED" (some r.privilege_level)
        newLevel reason approver now)

/-! ### Intelligence layer: `SakanaIntelligenceLayer` (sakana_intelligence.py) -/

/-- An entry of the in-memory `active_specialists` dict (keys `id`, `name`,
`domain`, `patterns`, `model_id`, `privilege_level`).  `domain` is `none` when
the Python value is `None`. -/
structure Specialist where
  id : String
  name : String
  domain : Option String
  patterns : List SPattern
  model_id : String
  privilege_level : String
deriving DecidableEq, Repr

/-- The decoded `result` payload stored by `_update_task_status`: either the
`{"error": ...}` dict returned on a failed lookup or privilege check, or the
success dict of `train_specialist_on_task` (its constant `training_time` and
`gpu_required` fields carry no information and are omitted). -/
inductive TrainResult
  | err (msg : String)
  | ok (specialist_id : String) (patterns_discovered total_patterns : Nat)
      (compression : ℚ)
deriving DecidableEq, Repr

/-- A row of the `task_queue` table (`task_id` is the primary key;
`priority` defaults to `"medium"`, `status` to `"pending"`). -/
structure TaskRow where
  task_id : String
  description : String
  domain : Option String
  priority : String
  status : String
  assigned_to : Option String
  created_at : String
  completed_at : Option String
  result : Option TrainResult
deriving DecidableEq, Repr

/-- A row of the `specialists` table; the `compression` field is the
`compression_ratio` column, seeded at `1000.0`. -/
structure SpecialistRow where
  id : String
  name : String
  domain : Option String
  patterns : List SPattern
  privilege_level : String
  compression : ℚ
  created_at : String
  last_active : String
deriving DecidableEq, Repr

/-- A row of the `pattern_discoveries` table. -/
structure DiscoveryRow where
  discovery_id : String
  specialist_id : String
  pattern_data : List SPattern
  field : Option String
  confidence : ℚ
  discovered_at : String
deriving DecidableEq, Repr

/-- The state owned by one `SakanaIntelligenceLayer`: the in-memory
`active_specialists` dict (association list in insertion order) plus its
database tables and the embedded privilege system state. -/
structure IntelState where
  active_specialists : List (String × Specialist)
  specialists_db : List SpecialistRow
  pattern_discoveries : List DiscoveryRow
  task_queue : List TaskRow
  priv : PrivState
deriving DecidableEq, Repr

/-- Oracles for the opaque effects of the intelligence layer: `genId` stands
for `_generate_id` (MD5 of seed and timestamp), `genModelId` for the privilege
system's `_generate_model_id`, `now` for `datetime.now().isoformat()`,
`serializedSize` for `len(json.dumps(patterns))`, and `novelFor` for the
`random.random() > 0.7` draw of `_discover_task_patterns` (when it fires it
yields the randomly chosen type and confidence of the novel pattern for the
given task id). -/
structure Ctx where
  genId : String → String
  genModelId : String → String
  now : String
  serializedSize : List SPattern → Nat
  novelFor : String → Option (String × ℚ)

/-- `SakanaIntelligenceLayer._get_domain_patterns`: curated starter patterns
for four named domains, one generic pattern otherwise (also for `None`). -/
def get_domain_patterns (domain : Option String) : List SPattern :=
  match domain with
  | some "optimization" =>
      [⟨"golden_ratio", "geometric", 9/10, none⟩,
       ⟨"harmonic_balance", "arithmetic", 85/100, none⟩,
       ⟨"gradient_free", "calculus", 8/10, none⟩]
  | some "prediction" =>
      [⟨"fibonacci_projection", "arithmetic", 88/100, none⟩,
       ⟨"chaos_attractor", "chaos", 75/100, none⟩,
       ⟨"bayesian_update", "statistical", 92/100, none⟩]
  | some "classification" =>
      [⟨"modular_signature", "arithmetic", 85/100, none⟩,
       ⟨"topological_invariant", "geometric", 78/100, none⟩,
       ⟨"entropy_measure", "information", 83/100, none⟩]
  | some "discovery" =>
      [⟨"pattern_synthesis", "algebraic", 8/10, none⟩,
       ⟨"fractal_exploration", "geometric", 77/100, none⟩,
       ⟨"combinatorial_search", "discrete", 82/100, none⟩]
  | _ => [⟨"general_pattern", "arithmetic", 7/10, none⟩]

/-- Python `keyword in description` on the lowercased description: a string
contains a nonempty keyword iff splitting on it yields at least two parts. -/
def pyIn (keyword s : String) : Bool := (s.splitOn keyword).length ≥ 2

/-- `SakanaIntelligenceLayer._discover_task_patterns`: keyword-triggered
patterns from the lowercased description, plus — when the random draw fired —
one novel pattern named after the current pattern count. -/
def discover_task_patterns (task : TaskRow) (novel : Option (String × ℚ)) :
    List SPattern :=
  let d := task.description.toLower
  let ps :=
    (if pyIn "optimize" d || pyIn "maximize" d then
      [⟨"optimization_pattern", "calculus", 88/100, some "local_maxima_detection"⟩]
     else [])
    ++ (if pyIn "predict" d || pyIn "forecast" d then
      [⟨"time_series_pattern", "statistical", 85/100, some "trend_extraction"⟩]
     else [])
    ++ (if pyIn "classify" d || pyIn "categorize" d then
      [⟨"clustering_pattern", "discrete", 82/100, some "distance_minimization"⟩]
     else [])
  match novel with
  | some (ty, conf) =>
      ps ++ [⟨"novel_pattern_" ++ toString ps.length, ty, conf,
             some "discovered_through_exploration"⟩]
  | none => ps

/-- `SakanaIntelligenceLayer.create_specialist`: register a privilege-system
model, seed the domain starter patterns, insert the `specialists` row
(compression ratio 1000.0) and add the specialist to `active_specialists`
(fresh MD5 ids, so plain appends). -/
def create_specialist (ctx : Ctx) (st : IntelState) (name : String)
    (domain : Option String) (level : String) : String × IntelState :=
  let specialist_id := ctx.genId name
  let model_id := ctx.genModelId name
  let priv' := register_model st.priv model_id name level none
      "sakana_intelligence" ctx.now
  let base := get_domain_patterns domain
  (specialist_id,
   { st with
      priv := priv'
      specialists_db := st.specialists_db ++
        [⟨specialist_id, name, domain, base, level, 1000, ctx.now, ctx.now⟩]
      active_specialists := st.active_specialists ++
        [(specialist_id, ⟨specialist_id, name, domain, base, model_id, level⟩)] })

/-- Dict lookup in `active_specialists` (`specialist_id not in ...` /
`self.active_specialists[specialist_id]`). -/
def lookupSpec (l : List (String × Specialist)) (sid : String) : Option Specialist :=
  (l.find? fun kv => kv.1 == sid).map (·.2)

/-- `SakanaIntelligenceLayer.train_specialist_on_task`: unknown specialist ⟶
error payload; then `check_privilege(model_id, "model_training")` (which may
raise at the SQLite layer); a denied check ⟶ error payload; otherwise discover
task patterns, synthesize them into the specialist's set, store the discovery
row (confidence 0.85), update the specialist's compression ratio
(`1000000 / len(json.dumps(patterns))`) and return the success payload. -/
def train_specialist_on_task (ctx : Ctx) (st : IntelState) (sid : String)
    (task : TaskRow) : Except DbError (TrainResult × IntelState) :=
  match lookupSpec st.active_specialists sid with
  | none => .ok (.err "Specialist not found", st)
  | some spec =>
      match check_privilege st.priv spec.model_id "model_training" ctx.now with
      | .error e => .error e
      | .ok (can_train, priv') =>
          let st1 := { st with priv := priv' }
          if can_train = false then
            .ok (.err "Specialist lacks training privileges", st1)
          else
            let task_patterns := discover_task_patterns task (ctx.novelFor task.task_id)
            let enhanced := synthesize_patterns spec.patterns task_patterns
            let ratio : ℚ := 1000000 / (ctx.serializedSize enhanced : ℚ)
            let discovery_id := ctx.genId (sid ++ "_" ++ task.task_id)
            let st2 := { st1 with
              active_specialists := st1.active_specialists.map fun kv =>
                if kv.1 == sid then (kv.1, { kv.2 with patterns := enhanced }) else kv
              pattern_discoveries := st1.pattern_discoveries ++
                [⟨discovery_id, sid, task_patterns, spec.domain, 85/100, ctx.now⟩]
              specialists_db := st1.specialists_db.map fun r =>
                if r.id == sid then
                  { r with compression := ratio, last_active := ctx.now }
                else r }
            .ok (.ok sid task_patterns.length enhanced.length ratio, st2)

/-- `SakanaIntelligenceLayer._find_or_create_specialist`: return the first
active specialist whose `domain` equals the task's (`None == None` matches in
Python); otherwise create one named `<domain>_specialist_<count>` (an `f`
string renders Python `None` as `"None"`) with the task's domain and the
default `TRAINING` level. -/
def find_or_create_specialist (ctx : Ctx) (st : IntelState) (task : TaskRow) :
    String × IntelState :=
  match st.active_specialists.find? fun kv => kv.2.domain == task.domain with
  | some kv => (kv.1, st)
  | none =>
      let dname := match task.domain with | some d => d | none => "None"
      let name := dname ++ "_specialist_" ++ toString st.active_specialists.length
      create_specialist ctx st name task.domain "training"

/-- `SakanaIntelligenceLayer._update_task_status`: set `status`,
`assigned_to`, `completed_at` and the serialized `result` on every
`task_queue` row with the given id. -/
def update_task_status (st : IntelState) (task_id status sid : String)
    (result : TrainResult) (now : String) : IntelState :=
  { st with task_queue := st.task_queue.map fun t =>
      if t.task_id == task_id then
        { t with status := status, assigned_to := some sid,
                 completed_at := some now, result := some result }
      else t }

/-- The `CASE priority WHEN 'high' THEN 1 WHEN 'medium' THEN 2 ELSE 3 END`
sort key of `process_queue`. -/
def priorityRank (p : String) : Nat :=
  if p == "high" then 1 else if p == "medium" then 2 else 3

/-- The `pending` rows of `task_queue` in rowid (insertion) order. -/
def pending_tasks (st : IntelState) : List TaskRow :=
  st.task_queue.filter fun t => t.status == "pending"

/-- The result of the `SELECT ... WHERE status = 'pending' ORDER BY CASE
priority ... END` of `process_queue`: the pending rows sorted by the
three-valued rank.  SQLite feeds this single-table scan to its sorter in
rowid order and returns equal-key rows in that order, so the sort is stable:
the rank-1 rows in table order, then the rank-2 rows, then the rest. -/
def dequeue_order (st : IntelState) : List TaskRow :=
  ((pending_tasks st).filter fun t => priorityRank t.priority == 1)
    ++ ((pending_tasks st).filter fun t => priorityRank t.priority == 2)
    ++ ((pending_tasks st).filter fun t => priorityRank t.priority == 3)

/-- The body of the `for task_id, ... in tasks` loop of `process_queue`:
resolve or create a specialist, train it on the task (propagating a raised
SQLite error), and mark the task `"completed"` with the returned payload —
the status written is `"completed"` on the error payloads too. -/
def process_task (ctx : Ctx) (st : IntelState) (t : TaskRow) :
    Except DbError IntelState :=
  let r := find_or_create_specialist ctx st t
  match train_specialist_on_task ctx r.2 r.1 t with
  | .error e => .error e
  | .ok (result, st') => .ok (update_task_status st' t.task_id "completed" r.1 result ctx.now)

/-- `SakanaIntelligenceLayer.process_queue`: snapshot the ordered pending
tasks, then run the loop body over them left to right. -/
def process_queue (ctx : Ctx) (st : IntelState) : Except DbError IntelState :=
  (dequeue_order st).foldlM (process_task ctx) st

/-- The task row written by the `process_queue` loop for a task whose
training call returned the privilege-denied error payload: status
`"completed"` (not `"failed"`), the resolved specialist, the completion time
and the explanatory error result. -/
def markDenied (sid now : String) (t : TaskRow) : TaskRow :=
  { t with status := "completed", assigned_to := some sid,
           completed_at := some now,
           result := some (.err "Specialist lacks training privileges") }

/-! ### Concrete states and inputs used to instantiate the theorems -/

/-- A fresh privilege database holding one TRAINING-level registration, as the
demo and test scripts create it. -/
def privTrainReg : PrivState :=
  register_model emptyPriv "model_pl" "pattern_learner" "training" none
    "test_script" "t0"

/-- A privilege database whose single registered model has been deactivated
(`is_active` cleared). -/
def privInactive : PrivState :=
  ⟨[⟨"m1", "old_specialist", "training", none, "t0", "system", "t0", false⟩], [], []⟩

/-- Two same-type patterns whose confidences both lie below an incoming 0.9. -/
def exC4 : List SPattern :=
  [⟨"alpha", "arithmetic", 1/2, none⟩, ⟨"beta", "arithmetic", 11/20, none⟩]

def incC4 : List SPattern := [⟨"alpha", "arithmetic", 9/10, none⟩]

/-- A pattern list on which merging with itself rewrites an entry and then
appends a duplicate. -/
def pC5 : List SPattern :=
  [⟨"beta", "arithmetic", 9/10, none⟩, ⟨"alpha", "arithmetic", 1/2, none⟩]

/-- The five-element sequence `[0.2, 0.584, 0.8935, 0.3525, 0.8379]` of the
spec and of `test_dojo.py`, as exact rationals. -/
def chaosSeq : List ℚ := [1/5, 73/125, 1787/2000, 141/400, 8379/10000]

/-- A ten-element sequence whose consecutive absolute differences have
variance well above half their mean. -/
def chaosSeq10 : List ℚ := [0, 1, 0, 1, 0, 1, 0, 1, 0, 10]

/-- A pending task row as `add_task_to_queue` inserts it. -/
def mkTask (id description prio : String) : TaskRow :=
  ⟨id, description, some "optimization", prio, "pending", none, "t0", none, none⟩

/-- Three pending tasks submitted in the order medium, low, high. -/
def stC6 : IntelState :=
  ⟨[], [], [],
   [mkTask "T1" "first submitted" "medium", mkTask "T2" "second submitted" "low",
    mkTask "T3" "third submitted" "high"], emptyPriv⟩

/-- A deterministic oracle bundle for the opaque effects. -/
def ctx0 : Ctx :=
  ⟨fun s => s ++ "_id", fun s => s ++ "_mid", "t1", fun ps => ps.length + 1,
   fun _ => none⟩

/-- An in-memory specialist whose privilege-system model id is absent from the
registry, so every capability check on it resolves no privileges. -/
def specC1 : Specialist :=
  ⟨"S1", "optimization_specialist", some "optimization", [], "M1", "training"⟩

/-- One active specialist and two pending tasks in its domain; the
specialist's model is unknown to the privilege registry, so
`model_training` is denied for it. -/
def stC1 : IntelState :=
  ⟨[("S1", specC1)], [], [],
   [mkTask "T1" "optimize inventory" "medium", mkTask "T2" "optimize routes" "high"],
   emptyPriv⟩
/-! ### Theorems -/

/-- A capability check that resolves no active registry row returns `False`
and leaves the database untouched (shared helper). -/
theorem check_privilege_no_active_row (st : PrivState) (mid cap now : String)
    (h : (st.model_registry.find? fun r => r.model_id == mid && r.is_active) = none) :
    check_privilege st mid cap now = .ok (false, st) := by
  unfold check_privilege get_model_privileges
  rw [h]

/-- C9: `checkPrivilege` on a model id with no active registry row (unknown,
or present but deactivated) returns `false` and leaves the whole
`capability_usage` state — indeed the whole database — unchanged. -/
theorem checkPrivilege_unknown_returns_false_records_nothing
    (st : PrivState) (mid cap now : String)
    (h : (st.model_registry.find? fun r => r.model_id == mid && r.is_active) = none) :
    check_privilege st mid cap now = .ok (false, st) :=
  check_privilege_no_active_row st mid cap now h

/-- C9 witness: an unknown id on the empty registry and a deactivated id both
satisfy the hypothesis, and the check returns `false` with the state intact. -/
theorem checkPrivilege_unknown_returns_false_records_nothing_witness :
    check_privilege emptyPriv "nobody" "file_system_read" "t9" = .ok (false, emptyPriv) ∧
    check_privilege privInactive "m1" "pattern_discovery" "t9" = .ok (false, privInactive) :=
  ⟨checkPrivilege_unknown_returns_false_records_nothing emptyPriv "nobody"
      "file_system_read" "t9" (by rfl),
   checkPrivilege_unknown_returns_false_records_nothing privInactive "m1"
      "pattern_discovery" "t9" (by rfl)⟩

/-- C2: evaluating `check_privilege` on a freshly registered, active TRAINING
model raises the SQLite error in both the allowed branch
(`pattern_discovery`) and the blocked branch (`network_access`), because the
upsert of `_track_capability_usage` names the conflict target
`(model_id, capability)` which matches no unique constraint of
`capability_usage`; no counter row is ever created or incremented. -/
theorem checkPrivilege_raises_on_tracked_check :
    check_privilege privTrainReg "model_pl" "pattern_discovery" "t1" =
      .error .onConflictNoUniqueIndex ∧
    check_privilege privTrainReg "model_pl" "network_access" "t1" =
      .error .onConflictNoUniqueIndex := ⟨rfl, rfl⟩

/-- C8: the scenario of the claim stops at its first step: for a specialist
registered at level TRAINING, `checkPrivilege(id, "file_system_write")` does
not return `false` — the usage-tracking upsert raises
`sqlite3.OperationalError` instead. -/
theorem checkPrivilege_training_file_write_raises :
    check_privilege privTrainReg "model_pl" "file_system_write" "t1" =
      .error .onConflictNoUniqueIndex := rfl

/-- C10: on a registered but deactivated model, `approve_privilege_escalation`
still succeeds: it returns `True`, rewrites `privilege_level` and
`last_modified` on the registry row, appends exactly one
`ESCALATION_APPROVED` audit entry carrying the prior and the new level — yet
`check_privilege` keeps treating the model as unknown and returns `false`
for every capability, before and after. -/
theorem approveEscalation_succeeds_on_inactive_model
    (st : PrivState) (mid newLevel approver reason now : String) (r : ModelRow)
    (hfind : (st.model_registry.find? fun r' => r'.model_id == mid) = some r)
    (hinact : ∀ r' ∈ st.model_registry, r'.model_id = mid → r'.is_active = false) :
    (approve_privilege_escalation st mid newLevel approver reason now).1 = true ∧
    (approve_privilege_escalation st mid newLevel approver reason now).2.model_registry =
      st.model_registry.map (fun r' =>
        if r'.model_id == mid then
          { r' with privilege_level := newLevel, last_modified := now }
        else r') ∧
    (approve_privilege_escalation st mid newLevel approver reason now).2.privilege_audit =
      st.privilege_audit ++
        [⟨mid, "ESCALATION_APPROVED", some r.privilege_level, newLevel, reason,
          approver, now⟩] ∧
    ∀ cap now2,
      check_privilege (approve_privilege_escalation st mid newLevel approver reason now).2
          mid cap now2 =
        .ok (false, (approve_privilege_escalation st mid newLevel approver reason now).2) := by
  unfold approve_privilege_escalation
  rw [hfind]
  refine ⟨rfl, rfl, rfl, ?_⟩
  intro cap now2
  apply check_privilege_no_active_row
  rw [List.find?_eq_none]
  intro x hx
  simp only [audit_action, List.mem_map] at hx
  obtain ⟨r', hr', him⟩ := hx
  by_cases hid : r'.model_id = mid
  · have : x = { r' with privilege_level := newLevel, last_modified := now } := by
      rw [← him]; simp [hid]
    subst this
    simp [hid, hinact r' hr' hid]
  · have : x = r' := by rw [← him]; simp [hid]
    subst this
    simp [hid]

/-- C10 witness: the deactivated model of `privInactive` is escalated to
desktop level with full effect while remaining invisible to
`check_privilege`. -/
theorem approveEscalation_succeeds_on_inactive_model_witness :
    (approve_privilege_escalation privInactive "m1" "desktop" "admin" "safe" "t2").1 = true ∧
    (approve_privilege_escalation privInactive "m1" "desktop" "admin" "safe" "t2").2.model_registry =
      privInactive.model_registry.map (fun r' =>
        if r'.model_id == "m1" then
          { r' with privilege_level := "desktop", last_modified := "t2" }
        else r') ∧
    (approve_privilege_escalation privInactive "m1" "desktop" "admin" "safe" "t2").2.privilege_audit =
      privInactive.privilege_audit ++
        [⟨"m1", "ESCALATION_APPROVED", some "training", "desktop", "safe",
          "admin", "t2"⟩] ∧
    check_privilege (approve_privilege_escalation privInactive "m1" "desktop" "admin" "safe" "t2").2
        "m1" "file_system_write" "t3" =
      .ok (false, (approve_privilege_escalation privInactive "m1" "desktop" "admin" "safe" "t2").2) := by
  have h := approveEscalation_succeeds_on_inactive_model privInactive "m1" "desktop"
    "admin" "safe" "t2" ⟨"m1", "old_specialist", "training", none, "t0", "system", "t0", false⟩
    (by rfl) (by decide)
  exact ⟨h.1, h.2.1, h.2.2.1, h.2.2.2 "file_system_write" "t3"⟩

/-- The duplicate test is the Boolean reflection of an existential (helper). -/
theorem isDuplicateOf_eq_true_iff (l : List SPattern) (np : SPattern) :
    isDuplicateOf l np = true ↔
      ∃ p ∈ l, p.name = np.name ∨
        (p.type = np.type ∧ |p.confidence - np.confidence| < 1/10) := by
  simp only [isDuplicateOf, List.any_eq_true]
  constructor
  · rintro ⟨p, hp, hif⟩
    refine ⟨p, hp, ?_⟩
    by_contra hc
    rw [if_neg hc] at hif
    exact Bool.false_ne_true hif
  · rintro ⟨p, hp, hP⟩
    exact ⟨p, hp, by rw [if_pos hP]⟩

/-- C5 (amended): merging any pattern set with the empty incoming set
returns it unchanged. -/
theorem synthesize_empty_incoming (P : List SPattern) :
    synthesize_patterns P [] = P := rfl

/-- C5 counterexample: `synthesize(P, P) == P` fails — on `pC5` the first
self-merge step rewrites the lower-confidence entry, after which the second
incoming pattern no longer matches anything and is appended, so the merge of
a set with itself grows it from two entries to three. -/
theorem synthesize_self_merge_grows :
    synthesize_patterns pC5 pC5 =
      [⟨"beta", "arithmetic", 9/10, none⟩, ⟨"beta", "arithmetic", 9/10, none⟩,
       ⟨"alpha", "arithmetic", 1/2, none⟩] ∧
    synthesize_patterns pC5 pC5 ≠ pC5 := by
  have hba : ¬ ("beta" : String) = "alpha" := by decide
  have hab : ¬ ("alpha" : String) = "beta" := by decide
  constructor
  · norm_num [synthesize_patterns, synthStep, isDuplicateOf, pC5, abs_of_nonneg,
      abs_of_nonpos, hba, hab]
  · norm_num [synthesize_patterns, synthStep, isDuplicateOf, pC5, abs_of_nonneg,
      abs_of_nonpos, hba, hab]

/-- C4 (amended): per incoming pattern, against the current merged list: with
no same-name and no close-confidence same-type entry present the pattern is
appended as new; with such a duplicate present nothing is appended and the
replacement sweep rewrites every (not only the first) same-type entry of
strictly smaller confidence with the incoming pattern. -/
theorem synthesize_single_step (existing : List SPattern) (np : SPattern) :
    ((∀ p ∈ existing, ¬(p.name = np.name ∨
        (p.type = np.type ∧ |p.confidence - np.confidence| < 1/10))) →
      synthesize_patterns existing [np] = existing ++ [np]) ∧
    ((∃ p ∈ existing, p.name = np.name ∨
        (p.type = np.type ∧ |p.confidence - np.confidence| < 1/10)) →
      synthesize_patterns existing [np] =
        existing.map fun p =>
          if p.type = np.type ∧ np.confidence > p.confidence then np else p) := by
  constructor
  · intro h
    have hdup : isDuplicateOf existing np = false := by
      rw [← Bool.not_eq_true, isDuplicateOf_eq_true_iff]
      push_neg at h ⊢
      exact h
    show synthStep existing np = existing ++ [np]
    rw [synthStep, hdup]
    simp
  · intro h
    have hdup : isDuplicateOf existing np = true :=
      (isDuplicateOf_eq_true_iff existing np).2 h
    show synthStep existing np = _
    rw [synthStep, hdup]
    simp

/-- C4 witness: an unmatched pattern is appended to the empty list, and
against `exC4` the incoming pattern matches by name, so the sweep runs. -/
theorem synthesize_single_step_witness :
    synthesize_patterns [] [⟨"alpha", "arithmetic", 9/10, none⟩] =
      [] ++ [⟨"alpha", "arithmetic", 9/10, none⟩] ∧
    synthesize_patterns exC4 [⟨"alpha", "arithmetic", 9/10, none⟩] =
      exC4.map (fun p =>
        if p.type = "arithmetic" ∧ (9/10 : ℚ) > p.confidence then
          ⟨"alpha", "arithmetic", 9/10, none⟩
        else p) :=
  ⟨(synthesize_single_step [] ⟨"alpha", "arithmetic", 9/10, none⟩).1 (by simp),
   (synthesize_single_step exC4 ⟨"alpha", "arithmetic", 9/10, none⟩).2
     ⟨⟨"alpha", "arithmetic", 1/2, none⟩, by norm_num [exC4], Or.inl rfl⟩⟩

/-- C4 counterexample: the claim predicts that only the first matching-field
entry of `exC4` is replaced, leaving `beta` in place; the code rewrites both
lower-confidence same-type entries. -/
theorem synthesize_replaces_all_matching :
    synthesize_patterns exC4 incC4 =
      [⟨"alpha", "arithmetic", 9/10, none⟩, ⟨"alpha", "arithmetic", 9/10, none⟩] ∧
    synthesize_patterns exC4 incC4 ≠
      [⟨"alpha", "arithmetic", 9/10, none⟩, ⟨"beta", "arithmetic", 11/20, none⟩] := by
  have hba : ¬ ("beta" : String) = "alpha" := by decide
  have hab : ¬ ("alpha" : String) = "beta" := by decide
  constructor
  · norm_num [synthesize_patterns, synthStep, isDuplicateOf, exC4, incC4,
      abs_of_nonneg, abs_of_nonpos, hba, hab]
  · norm_num [synthesize_patterns, synthStep, isDuplicateOf, exC4, incC4,
      abs_of_nonneg, abs_of_nonpos, hba, hab]

/-- C3 counterexample: on the five-element sequence
`[0.2, 0.584, 0.8935, 0.3525, 0.8379]` the chaos detector is gated off by its
`len(data) < 10` guard, so `discover` reports no chaos pattern at all — the
only discovery is the modular one (every element truncates to 0). -/
theorem discover_chaosSeq_reports_no_chaos :
    is_chaotic chaosSeq = false ∧
    chaosSeq.length = 5 ∧
    (discover_pattern chaosSeq none).discoveries =
      [⟨"arithmetic", "modular", 88/100, "a[n] % m = constant"⟩] := by
  have hchaos : is_chaotic chaosSeq = false := by simp [is_chaotic, chaosSeq]
  have hmap : chaosSeq.map (fun x => (pyTrunc x).emod 2) = [0, 0, 0, 0, 0] := by
    norm_num [chaosSeq, pyTrunc]
  have hmod : has_modular_pattern chaosSeq = true := by
    simp only [has_modular_pattern, List.any_cons, hmap]
    decide
  have hfib : is_fibonacci_like chaosSeq = false := by
    norm_num [is_fibonacci_like, fibWindows, chaosSeq, abs_of_nonneg]
  have hratio : detect_ratio_pattern chaosSeq = none := by
    norm_num [detect_ratio_pattern, consecutive_ratios, chaosSeq, abs_of_nonneg]
  refine ⟨hchaos, by simp [chaosSeq], ?_⟩
  simp [discover_pattern, hchaos, hmod, hfib, hratio]

/-- C3 (amended): the concrete five-element sequence is too short for the
chaos detector; the general rule holds: for any sequence of length at least
10 whose consecutive absolute differences have variance exceeding half their
mean, `discover` reports the chaos pattern with confidence 0.78. -/
theorem discover_reports_chaos_on_long_sensitive_data (data : List ℚ)
    (h10 : 10 ≤ data.length)
    (hvar : ((abs_diffs data).map fun d =>
        (d - (abs_diffs data).sum / ((abs_diffs data).length : ℚ)) ^ 2).sum /
          ((abs_diffs data).length : ℚ) >
        (abs_diffs data).sum / ((abs_diffs data).length : ℚ) * (1/2)) :
    (⟨"chaos", "chaotic", 78/100, "exhibits sensitive dependence"⟩ : Discovery) ∈
      (discover_pattern data none).discoveries := by
  have hchaos : is_chaotic data = true := by
    rw [is_chaotic, if_neg (by omega)]
    simp only [if_pos hvar]
  simp only [discover_pattern, hchaos]
  simp

/-- C3 witness: the ten-element sequence `chaosSeq10` satisfies both
hypotheses and the chaos discovery is reported. -/
theorem discover_reports_chaos_witness :
    (⟨"chaos", "chaotic", 78/100, "exhibits sensitive dependence"⟩ : Discovery) ∈
      (discover_pattern chaosSeq10 none).discoveries :=
  discover_reports_chaos_on_long_sensitive_data chaosSeq10
    (by simp [chaosSeq10])
    (by norm_num [abs_diffs, chaosSeq10, abs_of_nonneg])

/-- The walking loop of the fibonacci detector accepts a list exactly when
every three-element window satisfies the 0.001 tolerance (helper). -/
theorem fibWindows_eq_true_iff :
    ∀ l : List ℚ, fibWindows l = true ↔
      ∀ i, i + 2 < l.length →
        |l.get! (i + 2) - (l.get! (i + 1) + l.get! i)| ≤ 1/1000
  | [] => by simp [fibWindows]
  | [a] => by simp [fibWindows]
  | [a, b] => by
      simp only [fibWindows, List.length_cons, List.length_nil]
      constructor
      · intro _ i hi
        omega
      · intro _
        trivial
  | a :: b :: c :: rest => by
      have IH := fibWindows_eq_true_iff (b :: c :: rest)
      rw [fibWindows]
      by_cases h : |c - (b + a)| ≤ 1/1000
      · rw [if_pos h, IH]
        constructor
        · intro H i hi
          match i with
          | 0 => simpa using h
          | j + 1 =>
              simp only [List.get!_cons_succ]
              exact H j (by simpa using hi)
        · intro H j hj
          have := H (j + 1) (by simp at hj ⊢; omega)
          simpa using this
      · rw [if_neg h]
        constructor
        · intro hfalse
          exact absurd hfalse (by simp)
        · intro H
          exact absurd (by simpa using H 0 (by simp)) h

/-- C7: for every sequence of length at least 3 in which each element from
index 2 on is within 0.001 of the sum of its two predecessors, `discover`
reports the fibonacci pattern with confidence 0.95; and whenever some window
violates the tolerance, the fibonacci detector does not fire and no fibonacci
discovery is reported. -/
theorem discover_fibonacci_detector (data : List ℚ) :
    (3 ≤ data.length →
      (∀ i, i + 2 < data.length →
        |data.get! (i + 2) - (data.get! (i + 1) + data.get! i)| ≤ 1/1000) →
      (⟨"arithmetic", "fibonacci", 95/100, "a[n] = a[n-1] + a[n-2]"⟩ : Discovery) ∈
        (discover_pattern data none).discoveries) ∧
    ((∃ i, i + 2 < data.length ∧
        |data.get! (i + 2) - (data.get! (i + 1) + data.get! i)| > 1/1000) →
      is_fibonacci_like data = false ∧
      ∀ d ∈ (discover_pattern data none).discoveries, d.pattern ≠ "fibonacci") := by
  constructor
  · intro h3 hwin
    have hfib : is_fibonacci_like data = true := by
      rw [is_fibonacci_like, if_neg (by omega), fibWindows_eq_true_iff]
      exact hwin
    simp [discover_pattern, hfib]
  · rintro ⟨i, hi, hviol⟩
    have hfib : is_fibonacci_like data = false := by
      rw [is_fibonacci_like]
      split
      · rfl
      · rw [← Bool.not_eq_true, fibWindows_eq_true_iff]
        intro H
        exact absurd (H i hi) (not_le.mpr hviol)
    refine ⟨hfib, ?_⟩
    intro d hd
    rcases hr : detect_ratio_pattern data with _ | r
    · simp [discover_pattern, hfib, hr] at hd
      rcases hd with ⟨-, rfl⟩ | ⟨-, rfl⟩ <;> simp
    · simp [discover_pattern, hfib, hr] at hd
      rcases hd with ⟨-, rfl⟩ | ⟨-, rfl⟩ | ⟨-, rfl⟩ <;> simp

/-- C7 witness: `[1, 1, 2]` satisfies the recurrence within tolerance and the
fibonacci discovery appears, while `[0, 0, 1]` violates it at index 0 and the
detector does not fire. -/
theorem discover_fibonacci_detector_witness :
    (⟨"arithmetic", "fibonacci", 95/100, "a[n] = a[n-1] + a[n-2]"⟩ : Discovery) ∈
      (discover_pattern [1, 1, 2] none).discoveries ∧
    is_fibonacci_like [0, 0, 1] = false :=
  ⟨(discover_fibonacci_detector [1, 1, 2]).1 (by simp)
      (by
        intro i hi
        have h0 : i = 0 := by simp at hi; omega
        subst h0
        norm_num),
   ((discover_fibonacci_detector [0, 0, 1]).2
      ⟨0, by simp, by norm_num⟩).1⟩

/-- The three-valued CASE rank (helper). -/
theorem priorityRank_cases (s : String) :
    priorityRank s = 1 ∨ priorityRank s = 2 ∨ priorityRank s = 3 := by
  simp only [priorityRank]
  split
  · exact Or.inl rfl
  · split
    · exact Or.inr (Or.inl rfl)
    · exact Or.inr (Or.inr rfl)

/-- C6: the dequeue order of `processQueue` is a permutation of the pending
tasks (all of them are dequeued); the sequence of priority ranks along it is
monotone (`high` before `medium` before `low`); restricted to any one rank the
dequeue order is exactly the submission (rowid) order, i.e. the sort is
stable; and consequently any task at a `"high"` position precedes any task at
a `"medium"` or `"low"` position, regardless of submission order. -/
theorem processQueue_dequeue_ordering (st : IntelState) :
    (dequeue_order st).Perm (pending_tasks st) ∧
    ((dequeue_order st).map fun t => priorityRank t.priority).Sorted (· ≤ ·) ∧
    (∀ k : ℕ, (dequeue_order st).filter (fun t => priorityRank t.priority == k) =
      (pending_tasks st).filter (fun t => priorityRank t.priority == k)) ∧
    (∀ i j (hi : i < (dequeue_order st).length) (hj : j < (dequeue_order st).length),
      ((dequeue_order st).get ⟨i, hi⟩).priority = "high" →
      (((dequeue_order st).get ⟨j, hj⟩).priority = "medium" ∨
        ((dequeue_order st).get ⟨j, hj⟩).priority = "low") →
      i < j) := by
  have e2 : ((pending_tasks st).filter fun t => !(priorityRank t.priority == 1)).filter
      (fun t => priorityRank t.priority == 2) =
      (pending_tasks st).filter (fun t => priorityRank t.priority == 2) := by
    rw [List.filter_filter]
    exact List.filter_congr fun t _ => by
      rcases priorityRank_cases t.priority with h | h | h <;> rw [h] <;> rfl
  have e3 : ((pending_tasks st).filter fun t => !(priorityRank t.priority == 1)).filter
      (fun t => !(priorityRank t.priority == 2)) =
      (pending_tasks st).filter (fun t => priorityRank t.priority == 3) := by
    rw [List.filter_filter]
    exact List.filter_congr fun t _ => by
      rcases priorityRank_cases t.priority with h | h | h <;> rw [h] <;> rfl
  have hperm : (dequeue_order st).Perm (pending_tasks st) := by
    have h23 : (((pending_tasks st).filter fun t => priorityRank t.priority == 2) ++
        ((pending_tasks st).filter fun t => priorityRank t.priority == 3)).Perm
        ((pending_tasks st).filter fun t => !(priorityRank t.priority == 1)) := by
      rw [← e2, ← e3]
      exact List.filter_append_perm _ _
    have h0 : dequeue_order st =
        ((pending_tasks st).filter fun t => priorityRank t.priority == 1) ++
          (((pending_tasks st).filter fun t => priorityRank t.priority == 2) ++
            ((pending_tasks st).filter fun t => priorityRank t.priority == 3)) := by
      rw [dequeue_order, List.append_assoc]
    rw [h0]
    exact (List.Perm.append_left _ h23).trans (List.filter_append_perm _ _)
  have hmemrank : ∀ (k : ℕ) (x : ℕ),
      x ∈ (((pending_tasks st).filter fun t => priorityRank t.priority == k).map
        fun t => priorityRank t.priority) → x = k := by
    intro k x hx
    rcases List.mem_map.1 hx with ⟨t, ht, rfl⟩
    exact eq_of_beq (List.mem_filter.1 ht).2
  have hsorted : ((dequeue_order st).map fun t => priorityRank t.priority).Sorted (· ≤ ·) := by
    simp only [dequeue_order, List.map_append]
    rw [List.Sorted] at *
    rw [List.pairwise_append, List.pairwise_append]
    refine ⟨⟨?_, ?_, ?_⟩, ?_, ?_⟩
    · exact List.pairwise_of_forall_mem_list fun a ha b hb => by
        rw [hmemrank 1 a ha, hmemrank 1 b hb]
    · exact List.pairwise_of_forall_mem_list fun a ha b hb => by
        rw [hmemrank 2 a ha, hmemrank 2 b hb]
    · intro a ha b hb
      rw [hmemrank 1 a ha, hmemrank 2 b hb]
      omega
    · exact List.pairwise_of_forall_mem_list fun a ha b hb => by
        rw [hmemrank 3 a ha, hmemrank 3 b hb]
    · intro a ha b hb
      rw [hmemrank 3 b hb]
      rcases List.mem_append.1 ha with h | h
      · rw [hmemrank 1 a h]; omega
      · rw [hmemrank 2 a h]; omega
  have hnil : ∀ (j k : ℕ), j ≠ k →
      (List.filter (fun t => (priorityRank t.priority == k) && (priorityRank t.priority == j))
        (pending_tasks st)) = [] := by
    intro j k hjk
    rw [List.filter_eq_nil_iff]
    intro t _ hb
    simp only [Bool.and_eq_true, beq_iff_eq] at hb
    omega
  have hself : ∀ k : ℕ,
      (List.filter (fun t => (priorityRank t.priority == k) && (priorityRank t.priority == k))
        (pending_tasks st)) =
      (pending_tasks st).filter (fun t => priorityRank t.priority == k) := by
    intro k
    exact List.filter_congr fun t _ => Bool.and_self _
  have hstable : ∀ k : ℕ,
      (dequeue_order st).filter (fun t => priorityRank t.priority == k) =
        (pending_tasks st).filter (fun t => priorityRank t.priority == k) := by
    intro k
    simp only [dequeue_order, List.filter_append, List.filter_filter]
    by_cases h1 : k = 1
    · subst h1
      rw [hself, hnil 2 1 (by omega), hnil 3 1 (by omega)]
      simp
    · by_cases h2 : k = 2
      · subst h2
        rw [hself, hnil 1 2 (by omega), hnil 3 2 (by omega)]
        simp
      · by_cases h3 : k = 3
        · subst h3
          rw [hself, hnil 1 3 (by omega), hnil 2 3 (by omega)]
          simp
        · rw [hnil 1 k (by omega), hnil 2 k (by omega), hnil 3 k (by omega)]
          have hr : (pending_tasks st).filter (fun t => priorityRank t.priority == k) = [] := by
            rw [List.filter_eq_nil_iff]
            intro t _ hb
            rw [beq_iff_eq] at hb
            rcases priorityRank_cases t.priority with h | h | h <;> omega
          rw [hr]
          rfl
  refine ⟨hperm, hsorted, hstable, ?_⟩
  intro i j hi hj hhigh hml
  have hlm : (List.map (fun t => priorityRank t.priority) (dequeue_order st)).length =
      (dequeue_order st).length := List.length_map _ _
  have hri : priorityRank (((dequeue_order st).get ⟨i, hi⟩).priority) = 1 := by
    rw [hhigh]
    rfl
  have hrj : 2 ≤ priorityRank (((dequeue_order st).get ⟨j, hj⟩).priority) := by
    rcases hml with h | h <;> rw [h] <;> decide
  by_contra hij
  push_neg at hij
  rcases Nat.lt_or_ge j i with hji | hge
  · have hpw := List.pairwise_iff_get.1 hsorted ⟨j, by omega⟩ ⟨i, by omega⟩ hji
    rw [List.get_map, List.get_map] at hpw
    simp only at hpw
    omega
  · have : i = j := by omega
    subst this
    rcases hml with h | h
    · rw [hhigh] at h
      exact absurd h (by decide)
    · rw [hhigh] at h
      exact absurd h (by decide)

/-- C6 witness: with tasks submitted in the order medium, low, high, the
high-priority task T3 (submitted last, at position 0 of the dequeue order)
precedes the earlier medium task T1 (position 1). -/
theorem processQueue_dequeue_ordering_witness :
    (dequeue_order stC6).Perm (pending_tasks stC6) ∧
    ((dequeue_order stC6).map fun t => priorityRank t.priority).Sorted (· ≤ ·) ∧
    ((dequeue_order stC6).filter (fun t => priorityRank t.priority == 1) =
      (pending_tasks stC6).filter (fun t => priorityRank t.priority == 1)) ∧
    0 < 1 := by
  have h := processQueue_dequeue_ordering stC6
  have hi : 0 < (dequeue_order stC6).length := by decide
  have hj : 1 < (dequeue_order stC6).length := by decide
  exact ⟨h.1, h.2.1, h.2.2.1 1, h.2.2.2 0 1 hi hj (by rfl) (Or.inl (by rfl))⟩

/-- C1 counterexample: on `stC1` both pending tasks resolve the specialist
S1 whose model is unknown to the privilege registry, so training is denied —
yet `process_queue` marks both tasks `"completed"` (with the explanatory
error payload), never `"failed"`. -/
theorem processQueue_denied_marks_completed_not_failed :
    (process_queue ctx0 stC1).map (fun s => s.task_queue.map fun t =>
        (t.task_id, t.status, t.result)) =
      .ok [("T1", "completed", some (.err "Specialist lacks training privileges")),
           ("T2", "completed", some (.err "Specialist lacks training privileges"))] ∧
    "completed" ≠ "failed" := ⟨rfl, by decide⟩

/-- In an association list with distinct keys, searching for the key of a
member returns that member (helper). -/
theorem assoc_find_unique {α : Type} (l : List (String × α))
    (hk : (l.map Prod.fst).Nodup) (kv : String × α) (hmem : kv ∈ l) :
    (l.find? fun e => e.1 == kv.1) = some kv := by
  induction l with
  | nil => cases hmem
  | cons e tl ih =>
      by_cases he : (e.1 == kv.1) = true
      · have hekv : e = kv := by
          rcases List.mem_cons.1 hmem with h | htl
          · exact h.symm
          · exfalso
            have h1 : e.1 ∉ tl.map Prod.fst := (List.nodup_cons.1 hk).1
            exact h1 (eq_of_beq he ▸ List.mem_map_of_mem Prod.fst htl)
        subst hekv
        exact @List.find?_cons_of_pos _ (fun x => x.1 == e.1) e tl (by simp)
      · have hkvtl : kv ∈ tl := by
          rcases List.mem_cons.1 hmem with h | htl
          · exact absurd (h ▸ beq_self_eq_true kv.1) (h ▸ he)
          · exact htl
        rw [@List.find?_cons_of_neg _ (fun x => x.1 == kv.1) e tl he]
        exact ih (List.nodup_cons.1 hk).2 hkvtl

/-- One `process_queue` loop body step on a task whose resolved specialist
exists but whose privilege-registry model has no active row: the privilege
check cleanly returns `False` (nothing tracked), training returns the error
payload, and the only state change is the `"completed"` marking of the
task's row (helper). -/
theorem process_task_denied (ctx : Ctx) (s : IntelState) (t : TaskRow)
    (kv : String × Specialist)
    (hkeys : (s.active_specialists.map Prod.fst).Nodup)
    (hfind : (s.active_specialists.find? fun e => e.2.domain == t.domain) = some kv)
    (hpriv : (s.priv.model_registry.find? fun r =>
        r.model_id == kv.2.model_id && r.is_active) = none) :
    process_task ctx s t = .ok { s with task_queue := s.task_queue.map fun u =>
        if u.task_id == t.task_id then markDenied kv.1 ctx.now u else u } := by
  have hmem : kv ∈ s.active_specialists := List.mem_of_find?_eq_some hfind
  have hlook : (s.active_specialists.find? fun e => e.1 == kv.1) = some kv :=
    assoc_find_unique _ hkeys kv hmem
  unfold process_task find_or_create_specialist
  rw [hfind]
  simp only [train_specialist_on_task, lookupSpec, hlook, Option.map_some',
    check_privilege, get_model_privileges, hpriv, update_task_status, markDenied]
  simp

/-- Folding the `process_queue` loop body over tasks that all resolve a
specialist with an unknown-or-inactive model never raises and only rewrites
the matching task rows to their denied `"completed"` marking (helper). -/
theorem foldl_process_denied (ctx : Ctx) (base : IntelState)
    (hkeys : (base.active_specialists.map Prod.fst).Nodup) :
    ∀ (ts : List TaskRow) (q : List TaskRow),
      (∀ t ∈ ts, ∃ kv,
        (base.active_specialists.find? fun e => e.2.domain == t.domain) = some kv ∧
        (base.priv.model_registry.find? fun r =>
          r.model_id == kv.2.model_id && r.is_active) = none) →
      ∃ q', List.foldlM (process_task ctx) { base with task_queue := q } ts =
          .ok { base with task_queue := q' } ∧
        q'.length = q.length ∧
        ∀ i (hi : i < q.length) (hi' : i < q'.length),
          ((q.get ⟨i, hi⟩).task_id ∈ ts.map (fun t => t.task_id) →
            ∃ sid, q'.get ⟨i, hi'⟩ = markDenied sid ctx.now (q.get ⟨i, hi⟩)) ∧
          ((q.get ⟨i, hi⟩).task_id ∉ ts.map (fun t => t.task_id) →
            q'.get ⟨i, hi'⟩ = q.get ⟨i, hi⟩) := by
  intro ts
  induction ts with
  | nil =>
      intro q _
      exact ⟨q, rfl, rfl, fun i hi hi' =>
        ⟨fun hmem => absurd hmem (by simp), fun _ => rfl⟩⟩
  | cons t rest ih =>
      intro q H
      obtain ⟨kv, hfind, hpriv⟩ := H t (List.mem_cons_self t rest)
      have step := process_task_denied ctx { base with task_queue := q } t kv hkeys
        hfind hpriv
      obtain ⟨q', hfold, hlen, hidx⟩ :=
        ih (q.map fun u => if u.task_id == t.task_id then markDenied kv.1 ctx.now u else u)
          (fun u hu => H u (List.mem_cons_of_mem t hu))
      refine ⟨q', ?_, ?_, ?_⟩
      · rw [List.foldlM_cons, step]
        exact hfold
      · rw [hlen, List.length_map]
      · intro i hi hi'
        have hi1 : i < (q.map fun u =>
            if u.task_id == t.task_id then markDenied kv.1 ctx.now u else u).length := by
          rw [List.length_map]; exact hi
        have hq1 : (q.map fun u =>
            if u.task_id == t.task_id then markDenied kv.1 ctx.now u else u).get ⟨i, hi1⟩ =
            if (q.get ⟨i, hi⟩).task_id == t.task_id then
              markDenied kv.1 ctx.now (q.get ⟨i, hi⟩)
            else q.get ⟨i, hi⟩ := by
          rw [List.get_map]
        have hid : ((q.map fun u =>
            if u.task_id == t.task_id then markDenied kv.1 ctx.now u else u).get
              ⟨i, hi1⟩).task_id = (q.get ⟨i, hi⟩).task_id := by
          rw [hq1]
          split <;> rfl
        constructor
        · intro hmem
          by_cases hbeq : ((q.get ⟨i, hi⟩).task_id == t.task_id) = true
          · have hq1p : (q.map fun u =>
                if u.task_id == t.task_id then markDenied kv.1 ctx.now u else u).get
                  ⟨i, hi1⟩ = markDenied kv.1 ctx.now (q.get ⟨i, hi⟩) := by
              rw [hq1, if_pos hbeq]
            by_cases hr : (q.get ⟨i, hi⟩).task_id ∈ rest.map (fun t => t.task_id)
            · obtain ⟨sid, hs⟩ := (hidx i hi1 hi').1 (by rw [hid]; exact hr)
              refine ⟨sid, ?_⟩
              rw [hs, hq1p]
              rfl
            · have hs := (hidx i hi1 hi').2 (by rw [hid]; exact hr)
              exact ⟨kv.1, by rw [hs, hq1p]⟩
          · have hr : (q.get ⟨i, hi⟩).task_id ∈ rest.map (fun t => t.task_id) := by
              simp only [List.map_cons, List.mem_cons] at hmem
              rcases hmem with h | h
              · exact absurd (h ▸ beq_self_eq_true _) hbeq
              · exact h
            have hq1n : (q.map fun u =>
                if u.task_id == t.task_id then markDenied kv.1 ctx.now u else u).get
                  ⟨i, hi1⟩ = q.get ⟨i, hi⟩ := by
              rw [hq1, if_neg hbeq]
            obtain ⟨sid, hs⟩ := (hidx i hi1 hi').1 (by rw [hid]; exact hr)
            exact ⟨sid, by rw [hs, hq1n]⟩
        · intro hmem
          have hnt : ¬((q.get ⟨i, hi⟩).task_id == t.task_id) = true := by
            intro hb
            exact hmem (by
              simp only [List.map_cons, List.mem_cons]
              exact Or.inl (eq_of_beq hb))
          have hq1n : (q.map fun u =>
              if u.task_id == t.task_id then markDenied kv.1 ctx.now u else u).get
                ⟨i, hi1⟩ = q.get ⟨i, hi⟩ := by
            rw [hq1, if_neg hnt]
          have hr : (q.get ⟨i, hi⟩).task_id ∉ rest.map (fun t => t.task_id) := fun h =>
            hmem (by
              simp only [List.map_cons, List.mem_cons]
              exact Or.inr h)
          have hs := (hidx i hi1 hi').2 (by rw [hid]; exact hr)
          rw [hs, hq1n]

/-- C1 (amended): when every dequeued pending task resolves an existing
specialist whose privilege-registry model is unknown or inactive — the
reachable way for `model_training` to be denied, since the check then cleanly
returns `False` without touching the usage tracker — `process_queue` raises
nothing, processes every pending task, and marks each one `"completed"` (not
`"failed"`) with the explanatory error result, leaving non-pending rows, the
specialist registry and the privilege state untouched. -/
theorem processQueue_denied_training_marks_completed (ctx : Ctx) (st : IntelState)
    (hids : (st.task_queue.map fun t => t.task_id).Nodup)
    (hkeys : (st.active_specialists.map Prod.fst).Nodup)
    (hres : ∀ t ∈ pending_tasks st, ∃ kv,
        (st.active_specialists.find? fun e => e.2.domain == t.domain) = some kv ∧
        (st.priv.model_registry.find? fun r =>
          r.model_id == kv.2.model_id && r.is_active) = none) :
    ∃ st', process_queue ctx st = .ok st' ∧
      st'.active_specialists = st.active_specialists ∧
      st'.priv = st.priv ∧
      st'.task_queue.length = st.task_queue.length ∧
      ∀ i (hi : i < st.task_queue.length) (hi' : i < st'.task_queue.length),
        ((st.task_queue.get ⟨i, hi⟩).status = "pending" →
          ∃ sid, st'.task_queue.get ⟨i, hi'⟩ =
            markDenied sid ctx.now (st.task_queue.get ⟨i, hi⟩)) ∧
        ((st.task_queue.get ⟨i, hi⟩).status ≠ "pending" →
          st'.task_queue.get ⟨i, hi'⟩ = st.task_queue.get ⟨i, hi⟩) := by
  have hsub : ∀ t ∈ dequeue_order st, t ∈ pending_tasks st := by
    intro t ht
    simp only [dequeue_order, List.mem_append, List.mem_filter] at ht
    rcases ht with (h | h) | h <;> exact h.1
  obtain ⟨q', hfold, hlen, hidx⟩ :=
    foldl_process_denied ctx st hkeys (dequeue_order st) st.task_queue
      (fun t ht => hres t (hsub t ht))
  refine ⟨{ st with task_queue := q' }, hfold, rfl, rfl, hlen, ?_⟩
  intro i hi hi'
  constructor
  · intro hpend
    have htmem : st.task_queue.get ⟨i, hi⟩ ∈ pending_tasks st :=
      List.mem_filter.2 ⟨List.get_mem _ _ _, by rw [hpend]; rfl⟩
    have hdq : st.task_queue.get ⟨i, hi⟩ ∈ dequeue_order st := by
      rcases priorityRank_cases ((st.task_queue.get ⟨i, hi⟩).priority) with h | h | h
      · exact List.mem_append_left _ (List.mem_append_left _
          (List.mem_filter.2 ⟨htmem, by rw [h]; rfl⟩))
      · exact List.mem_append_left _ (List.mem_append_right _
          (List.mem_filter.2 ⟨htmem, by rw [h]; rfl⟩))
      · exact List.mem_append_right _ (List.mem_filter.2 ⟨htmem, by rw [h]; rfl⟩)
    exact (hidx i hi hi').1 (List.mem_map_of_mem _ hdq)
  · intro hnp
    refine (hidx i hi hi').2 ?_
    intro hmem
    rcases List.mem_map.1 hmem with ⟨u, hu, huid⟩
    have hupend : u ∈ pending_tasks st := hsub u hu
    have huq : u ∈ st.task_queue := (List.mem_filter.1 hupend).1
    have hut : u = st.task_queue.get ⟨i, hi⟩ :=
      List.inj_on_of_nodup_map hids huq (List.get_mem _ _ _) huid
    have : (st.task_queue.get ⟨i, hi⟩).status = "pending" :=
      eq_of_beq (hut ▸ (List.mem_filter.1 hupend).2)
    exact hnp this

/-- C1 witness: `stC1` (two pending tasks, one matching specialist, model
unknown to the registry) satisfies the hypotheses, and the queue pass
completes both tasks. -/
theorem processQueue_denied_training_marks_completed_witness :
    (process_queue ctx0 stC1).map (fun s => s.task_queue.map fun t => t.status) =
      .ok ["completed", "completed"] := by
  obtain ⟨st', heq, -, -, hlen, hidx⟩ :=
    processQueue_denied_training_marks_completed ctx0 stC1 (by decide) (by decide)
      (by
        intro t ht
        have ht' : t = mkTask "T1" "optimize inventory" "medium" ∨
            t = mkTask "T2" "optimize routes" "high" := by
          simpa [pending_tasks, stC1, mkTask] using ht
        rcases ht' with rfl | rfl <;> exact ⟨("S1", specC1), rfl, rfl⟩)
  rw [heq]
  show Except.ok (st'.task_queue.map fun t => t.status) = .ok ["completed", "completed"]
  have h2 : st'.task_queue.length = 2 := by rw [hlen]; rfl
  congr 1
  apply List.ext_get
  · rw [List.length_map, h2]
    rfl
  · intro n h1n h2n
    rw [List.get_map]
    have hn2 : n < 2 := by
      rw [List.length_map, h2] at h1n
      exact h1n
    have hn : n < stC1.task_queue.length := by
      show n < 2
      exact hn2
    have hn' : n < st'.task_queue.length := by omega
    have hpend : (stC1.task_queue.get ⟨n, hn⟩).status = "pending" := by
      match n, hn2 with
      | 0, _ => rfl
      | 1, _ => rfl
    obtain ⟨sid, hm⟩ := (hidx n hn hn').1 hpend
    have : st'.task_queue.get ⟨n, _⟩ = markDenied sid ctx0.now (stC1.task_queue.get ⟨n, hn⟩) := hm
    rw [this]
    match n, hn2 with
    | 0, _ => rfl
    | 1, _ => rfl
